import Mathlib

/-!
Verification development for the mcp-kafka repository.

The development shallowly embeds the parts of the source that the
specification talks about:

* `src/mcp_kafka/utils/string.py` — the hand-rolled JAAS quoted-value
  scanner `parse_value`;
* `src/mcp_kafka/core.py` — the `Core` cluster registry: lazily cached
  Kafka admin clients (`Core.kafka_admin_client`), the cluster name list
  (`Core.clusters`) and graceful shutdown (`Core.close`);
* `src/mcp_kafka/kafka/topic.py` — the `KafkaTopic` facade
  (`create_topic`, `describe_topics`, `delete_topics`, `alter_topic`)
  over an external Kafka admin client, which is modelled at its
  interface as an explicit broker state with call counters.

Python strings are embedded as `List Char` (with `String` wrappers),
Python dicts that are used in insertion order as association lists, and
machine-level concerns (logging) are dropped.  Fallible Python code
(raising `KeyError` or a close failure) is embedded with `Option` /
`Except` results.
-/

/- ------------------------------------------------------------------
   src/mcp_kafka/utils/string.py : parse_value
   ------------------------------------------------------------------ -/

/-- The backslash character, used by the scanner's escape folding. -/
def backslashChar : Char := '\\'

/-- The double-quote character `"`. -/
def dquoteChar : Char := Char.ofNat 34

/-- The single-quote character. -/
def squoteChar : Char := Char.ofNat 39

/-- Python `str.isspace` restricted to the ASCII whitespace characters
(space, tab, newline, carriage return, vertical tab, form feed); the
client-properties texts this scanner targets are ASCII. -/
def pyIsSpace (c : Char) : Bool :=
  c = ' ' || c = '\t' || c = '\n' || c = '\r' || c = '\x0b' || c = '\x0c'

/-- `startsWith sub l` : `sub` is a prefix of `l` (character lists). -/
def startsWith : List Char → List Char → Bool
  | [], _ => true
  | _ :: _, [] => false
  | a :: as, b :: bs => a = b && startsWith as bs

/-- Python `text.find(sub, start)`: the smallest index `i ≥ start` at which
`sub` occurs in `t` (`none` plays the role of Python's `-1`).  Candidate
positions run up to and including `t.length`, matching Python, where an
empty needle is found at the end of the string. -/
def findFrom (t sub : List Char) (start : Nat) : Option Nat :=
  ((List.range (t.length + 1)).filter
      (fun i => decide (start ≤ i) && startsWith sub (t.drop i))).head?

/-- Number of leading characters of `l` satisfying Python `isspace`. -/
def skipCount : List Char → Nat
  | [] => 0
  | c :: rest => if pyIsSpace c then skipCount rest + 1 else 0

/-- The index loop `while i < len(text) and text[i].isspace(): i += 1`
of `parse_value`, expressed as the start index plus the number of leading
whitespace characters of the suffix. -/
def skipSpaces (t : List Char) (i : Nat) : Nat :=
  i + skipCount (t.drop i)

/-- The accumulation loop of `parse_value` (`src/mcp_kafka/utils/string.py`
lines 24-33).  `value` is the accumulated list in reverse: Python appends at
the end of `value` and rewrites `value[-1]`, here we cons at the head and
rewrite the head.  On an unescaped closing quote the loop breaks and the
accumulated value is returned; at the end of the text the accumulated value
is returned as well. -/
def scanLoop : List Char → Char → List Char → List Char
  | [], _, value => value
  | ch :: rest, q, value =>
    if ch = q then
      match value with
      | b :: v => if b = backslashChar then scanLoop rest q (q :: v) else b :: v
      | [] => []
    else scanLoop rest q (ch :: value)

/-- `parse_value(key, text)` from `src/mcp_kafka/utils/string.py` with the
default `quotes=('"', "'")`, at the level of character lists: locate the
key, find the `=` after it, skip whitespace, require a quote, then run
the accumulation loop on the characters after the opening quote.  The
empty list plays the role of the returned empty string. -/
def parse_valueChars (k t : List Char) : List Char :=
  match findFrom t k 0 with
  | none => []                                   -- key_pos == -1
  | some key_pos =>
    match findFrom t [Char.ofNat 61] (key_pos + k.length) with
    | none => []                                 -- eq_pos == -1
    | some eq_pos =>
      let i := skipSpaces t (eq_pos + 1)
      match (t.drop i).head? with
      | none => []                               -- i >= len(text)
      | some c =>
        if c = dquoteChar ∨ c = squoteChar then
          (scanLoop (t.drop (i + 1)) c []).reverse
        else []                                  -- text[i] not in quotes

/-- `parse_value(key, text)`: the string wrapper around
`parse_valueChars` (Python strings are their character lists). -/
def parse_value (key text : String) : String :=
  (parse_valueChars key.toList text.toList).asString

/-- Modelled from the spec (§4.1, JAAS value-extraction algorithm): the
quoted-value scan stated forwards — a backslash immediately followed by the
quote character folds to a literal quote, an unescaped quote stops the
scan, any other character is accumulated. -/
def specScan (q : Char) : List Char → List Char
  | [] => []
  | c1 :: c2 :: rest =>
    if c1 = backslashChar && c2 = q then q :: specScan q rest
    else if c1 = q then []
    else c1 :: specScan q (c2 :: rest)
  | [c1] => if c1 = q then [] else [c1]

/-- Modelled from the spec (§4.1): locate the key token; find the next `=`
after it; skip whitespace; require the next character to be a quote; scan
the quoted value; return the empty string (list) if any required token is
absent. -/
def specParseValueChars (k t : List Char) : List Char :=
  match findFrom t k 0 with
  | none => []
  | some key_pos =>
    match findFrom t [Char.ofNat 61] (key_pos + k.length) with
    | none => []
    | some eq_pos =>
      match (t.drop (eq_pos + 1)).dropWhile pyIsSpace with
      | [] => []
      | c :: rest =>
        if c = dquoteChar ∨ c = squoteChar then specScan c rest
        else []

/-- The spec-worded extraction as a string function. -/
def specParseValue (key text : String) : String :=
  (specParseValueChars key.toList text.toList).asString

/-- `true` iff the scan of `l` for quote `q` reaches an unescaped closing
quote (rather than running off the end of the text). -/
def hasTerm (q : Char) : List Char → Bool
  | [] => false
  | c1 :: c2 :: rest =>
    if c1 = backslashChar && c2 = q then hasTerm q rest
    else if c1 = q then true
    else hasTerm q (c2 :: rest)
  | [c1] => c1 = q

/-- Total escape-folding accumulation: every character of `l` is kept,
with backslash-quote pairs folded to a literal quote.  This is what the
scan yields when no unescaped closing quote occurs. -/
def escFold (q : Char) : List Char → List Char
  | [] => []
  | c1 :: c2 :: rest =>
    if c1 = backslashChar && c2 = q then q :: escFold q rest
    else c1 :: escFold q (c2 :: rest)
  | [c1] => [c1]

/- ------------------------------------------------------------------
   src/mcp_kafka/core.py : the Core cluster registry
   ------------------------------------------------------------------ -/

/-- `SSLConfig` (core.py lines 14-24): optional paths, defaulting to
Python `None`. -/
structure SSLConfig where
  ca_file : Option String := none
  certfile : Option String := none
  keyfile : Option String := none
deriving DecidableEq, Repr

/-- `ClusterConfig` (core.py lines 27-45). -/
structure ClusterConfig where
  bootstrap_servers : List String
  ssl : SSLConfig := {}
  security_protocol : String := "PLAINTEXT"
  sasl_mechanism : Option String := none
  sasl_plain_username : Option String := none
  sasl_plain_password : Option String := none
deriving DecidableEq, Repr

/-- The keyword configuration `kafka_config` built in
`Core.kafka_admin_client` (core.py lines 199-208) and passed to the
external `KafkaAdminClient` constructor. -/
structure KafkaAdminConfig where
  bootstrap_servers : List String
  security_protocol : String
  sasl_mechanism : Option String
  sasl_plain_username : Option String
  sasl_plain_password : Option String
  ssl_cafile : Option String
  ssl_certfile : Option String
  ssl_keyfile : Option String
deriving DecidableEq, Repr

/-- Modelled external handle: one constructed `KafkaAdminClient` object.
`hid` numbers the constructions (an instrumentation counter for the
"connection construction count" the spec talks about); `config` is the
keyword configuration it was constructed with. -/
structure KafkaAdminClient where
  hid : Nat
  config : KafkaAdminConfig
deriving DecidableEq, Repr

/-- `kafka_config` as built from a `ClusterConfig` in
`Core.kafka_admin_client` (core.py lines 199-208). -/
def adminConfigOf (c : ClusterConfig) : KafkaAdminConfig where
  bootstrap_servers := c.bootstrap_servers
  security_protocol := c.security_protocol
  sasl_mechanism := c.sasl_mechanism
  sasl_plain_username := c.sasl_plain_username
  sasl_plain_password := c.sasl_plain_password
  ssl_cafile := c.ssl.ca_file
  ssl_certfile := c.ssl.certfile
  ssl_keyfile := c.ssl.keyfile

/-- Association-list lookup, modelling Python dict lookup.  The dicts of
`Core` are only ever extended with keys not yet present, so the keys are
unique and first-match lookup is dict lookup. -/
def lookupA {α : Type} : List (String × α) → String → Option α
  | [], _ => none
  | (k, v) :: rest, key => if k = key then some v else lookupA rest key

/-- The mutable state of one `Core` instance: `clusters` is
`self.config['clusters']` (`none` when the key is absent, i.e. no
clusters config file was given), `admin_clients` is the
`self._kafka_admin_clients` dict in insertion order, and `constructed`
counts `KafkaAdminClient` constructions so far (instrumentation; it also
serves as the id of the next constructed handle). -/
structure CoreState where
  clusters : Option (List (String × ClusterConfig))
  admin_clients : List (String × KafkaAdminClient)
  constructed : Nat
deriving DecidableEq, Repr

/-- `Core.clusters` (core.py lines 165-172):
`self.config['clusters'].keys() if 'clusters' in self.config else []`. -/
def Core.clusters (s : CoreState) : List String :=
  match s.clusters with
  | some cs => cs.map Prod.fst
  | none => []

/-- `Core.get_cluster_config` (core.py lines 174-189): `none` stands for
the raised `KeyError` (no clusters in the configuration, or the name
absent from it). -/
def Core.get_cluster_config (s : CoreState) (cluster_name : String) :
    Option ClusterConfig :=
  match s.clusters with
  | none => none
  | some cs => lookupA cs cluster_name

/-- `Core.kafka_admin_client` (core.py lines 191-211): on a cache miss,
resolve the cluster configuration (a missing name raises `KeyError`,
embedded as `none`, leaving the state untouched), construct a new client
from `kafka_config`, store it in the cache keyed by the cluster name and
return the cached entry; on a hit, return the cached client unchanged. -/
def Core.kafka_admin_client (s : CoreState) (cluster_name : String) :
    Option (KafkaAdminClient × CoreState) :=
  match lookupA s.admin_clients cluster_name with
  | some client => some (client, s)
  | none =>
    match Core.get_cluster_config s cluster_name with
    | none => none
    | some config =>
      let client : KafkaAdminClient := ⟨s.constructed, adminConfigOf config⟩
      some (client,
        { s with
            admin_clients := s.admin_clients ++ [(cluster_name, client)],
            constructed := s.constructed + 1 })

/-- A sequence of `kafka_admin_client` requests, as issued by successive
tool invocations.  A request for an unknown name raises `KeyError`, which
the tool boundary catches (tools.py wraps every facade call in
`try/except`), so the registry state persists unchanged and later
requests proceed. -/
def Core.runRequests (s : CoreState) : List String → CoreState
  | [] => s
  | n :: rest =>
    match Core.kafka_admin_client s n with
    | some (_, s2) => Core.runRequests s2 rest
    | none => Core.runRequests s rest

/-- The `for` loop of `Core.close` (core.py lines 215-217): close the
cached clients in insertion order.  `fails` is the environment's choice
of which close calls raise; `closed` accumulates the handles whose
`close()` returned.  The loop has no exception handler, so the first
failing close aborts it: the result is `.error` and the clients from the
failing one onwards are never closed. -/
def Core.closeLoop (fails : KafkaAdminClient → Bool) (closed : List KafkaAdminClient) :
    List (String × KafkaAdminClient) → Except Unit Unit × List KafkaAdminClient
  | [] => (.ok (), closed)
  | (_, client) :: rest =>
    if fails client then (.error (), closed)
    else Core.closeLoop fails (closed ++ [client]) rest

/-- `Core.close` (core.py lines 213-219): close every cached client, then
clear the cache.  Returns the `Core` state after the call (on an
exception the dict is left as it was — `clear()` is never reached), the
outcome (`.error` when a close raised, propagating to the caller), and
the list of handles actually closed. -/
def Core.close (fails : KafkaAdminClient → Bool) (s : CoreState) :
    CoreState × Except Unit Unit × List KafkaAdminClient :=
  match Core.closeLoop fails [] s.admin_clients with
  | (.ok _, closed) => ({ s with admin_clients := [] }, .ok (), closed)
  | (.error _, closed) => (s, .error (), closed)

/- ------------------------------------------------------------------
   Interleaved execution of Core.kafka_admin_client (two first-use
   callers for the same cluster name)
   ------------------------------------------------------------------ -/

/-- One caller executing the body of `Core.kafka_admin_client` for a fixed
cluster name, broken at its statement boundaries.  `pc` is the program
counter: 0 = the `cluster_name not in self._kafka_admin_clients` test,
1 = the `KafkaAdminClient(**kafka_config)` construction (the
connection-establishment suspension point of spec §5), 2 = the dict
store, 3 = the final `return self._kafka_admin_clients[cluster_name]`
read, 4 = done.  `hloc` is the id of the client this caller constructed
locally, if any. -/
structure RaceCaller where
  pc : Nat
  hloc : Option Nat
deriving DecidableEq, Repr

/-- Shared state of the two-caller interleaving: `cache` is the cache
slot of the one contended cluster name, `built` counts client
constructions (the freshly built client gets the current count as id),
`a`/`b` are the two callers and `ra`/`rb` their returned handles. -/
structure RaceState where
  cache : Option Nat
  built : Nat
  a : RaceCaller
  b : RaceCaller
  ra : Option Nat
  rb : Option Nat
deriving DecidableEq, Repr

/-- One atomic step of one caller: the cache-membership test branches to
the construction (miss) or straight to the return-read (hit); the
construction makes a new client; the store writes it into the cache
slot; the read returns whatever the cache holds.  Returns the updated
cache slot, construction count, caller, and returned handle. -/
def raceMicroStep (cache : Option Nat) (built : Nat) (c : RaceCaller)
    (r : Option Nat) : Option Nat × Nat × RaceCaller × Option Nat :=
  match c.pc with
  | 0 =>
    match cache with
    | some _ => (cache, built, { c with pc := 3 }, r)
    | none => (cache, built, { c with pc := 1 }, r)
  | 1 => (cache, built + 1, { pc := 2, hloc := some built }, r)
  | 2 => (some (c.hloc.getD 0), built, { c with pc := 3 }, r)
  | 3 => (cache, built, { c with pc := 4 }, cache)
  | _ => (cache, built, c, r)

/-- Run one step of caller `a` (when `which` is `true`) or caller `b`. -/
def raceStep (st : RaceState) (which : Bool) : RaceState :=
  if which then
    let (cache, built, c, r) := raceMicroStep st.cache st.built st.a st.ra
    { st with cache := cache, built := built, a := c, ra := r }
  else
    let (cache, built, c, r) := raceMicroStep st.cache st.built st.b st.rb
    { st with cache := cache, built := built, b := c, rb := r }

/-- Run a schedule (the list of which caller steps next). -/
def raceRun (sched : List Bool) (st : RaceState) : RaceState :=
  sched.foldl raceStep st

/-- Both callers about to enter `Core.kafka_admin_client` for the same
name, no handle cached yet. -/
def raceInit : RaceState :=
  { cache := none, built := 0, a := ⟨0, none⟩, b := ⟨0, none⟩,
    ra := none, rb := none }

/-- Caller `a` runs the whole body before caller `b` starts. -/
def schedSeqA : List Bool := [true, true, true, true, false, false, false, false]

/-- Caller `b` runs the whole body before caller `a` starts. -/
def schedSeqB : List Bool := [false, false, false, false, true, true, true, true]

/-- Both callers pass the cache-membership test before either stores: the
schedule realising the race on the connection-establishment suspension
point. -/
def schedRace : List Bool := [true, false, true, true, true, false, false, false]

/- ------------------------------------------------------------------
   src/mcp_kafka/kafka/topic.py : the KafkaTopic facade
   ------------------------------------------------------------------ -/

/-- `ConfigResourceType` (external `kafka.admin` enum; only the members
the source uses). -/
inductive ConfigResourceType where
  | broker
  | topic
deriving DecidableEq, Repr

/-- `NewTopic` (external `kafka.admin` value object) as built by
`KafkaTopic.create_topic` (topic.py lines 37-42). -/
structure NewTopic where
  name : String
  num_partitions : Nat
  replication_factor : Nat
  topic_configs : List (String × String)
deriving DecidableEq, Repr

/-- `DeleteTopicsResponse_v3` (external `kafka.protocol.admin` response
shape): a throttle time and one `(topic, error_code)` pair per topic.
Both the dry-run synthesis and the remote delete produce this shape. -/
structure DeleteTopicsResponse_v3 where
  throttle_time_ms : Nat
  topic_error_codes : List (String × Nat)
deriving DecidableEq, Repr

/-- `AlterConfigsResponse_v1` (external `kafka.protocol.admin` response
shape): a throttle time and one
`(error_code, error_message, resource_type, resource_name)` entry per
resource. -/
structure AlterConfigsResponse_v1 where
  throttle_time_ms : Nat
  resources : List (Nat × Option String × ConfigResourceType × String)
deriving DecidableEq, Repr

/-- Modelled from the spec: the external Kafka admin client held by
`self._core.kafka_admin_client`, at its interface.  `topics` is the
cluster's topic list; the remaining fields are instrumentation counting
the remote calls the facade issues: `createCalls`, `deleteCalls` and
`alterCalls` count `create_topics` / `delete_topics` / `alter_configs`
invocations, `listCalls` counts `list_topics`, and `describeCalls` logs
each `describe_topics` invocation with the topic-name batch it
requested. -/
structure AdminClientState where
  topics : List String
  createCalls : Nat
  deleteCalls : Nat
  alterCalls : Nat
  listCalls : Nat
  describeCalls : List (List String)
deriving DecidableEq, Repr

/-- Modelled from the spec (§6 facade table, `listTopics`): returns the
topic name list. -/
def clientListTopics (s : AdminClientState) : List String × AdminClientState :=
  (s.topics, { s with listCalls := s.listCalls + 1 })

/-- Modelled from the spec (§6 facade table, `createTopic` /
`RemoteAdminError`): the broker creates each topic that does not yet
exist with error code 0 and reports error code 36 (topic already exists)
otherwise; with `validate_only` nothing is committed. -/
def clientCreateTopics (ts : List NewTopic) (validate_only : Bool)
    (s : AdminClientState) : List (String × Nat) × AdminClientState :=
  let resp := ts.map (fun t => (t.name, if t.name ∈ s.topics then 36 else 0))
  let newNames := (ts.map NewTopic.name).filter (fun n => ¬ n ∈ s.topics)
  (resp,
   { s with
       createCalls := s.createCalls + 1,
       topics := if validate_only then s.topics else s.topics ++ newNames })

/-- Modelled from the spec (§6 facade table, `describeTopics`): returns
metadata for each existing requested topic, identified by its name; the
requested batch is logged. -/
def clientDescribeTopics (ts : List String) (s : AdminClientState) :
    List String × AdminClientState :=
  (ts.filter (fun t => t ∈ s.topics),
   { s with describeCalls := s.describeCalls ++ [ts] })

/-- Modelled from the spec (§6 facade table, `deleteTopic(s)`): deletes
the named topics, reporting error code 0 for topics that existed and 3
(unknown topic) otherwise. -/
def clientDeleteTopics (ts : List String) (s : AdminClientState) :
    DeleteTopicsResponse_v3 × AdminClientState :=
  (⟨0, ts.map (fun t => (t, if t ∈ s.topics then 0 else 3))⟩,
   { s with
       deleteCalls := s.deleteCalls + 1,
       topics := s.topics.filter (fun t => ¬ t ∈ ts) })

/-- `ConfigResource` (external `kafka.admin` value object) as built by
`KafkaTopic.alter_topic` (topic.py lines 103-107). -/
structure ConfigResource where
  resource_type : ConfigResourceType
  name : String
  configs : List (String × String)
deriving DecidableEq, Repr

/-- Modelled from the spec (§6 facade table, `updateTopic`): applies the
configuration alteration remotely, reporting one entry per resource. -/
def clientAlterConfigs (rs : List ConfigResource) (s : AdminClientState) :
    AlterConfigsResponse_v1 × AdminClientState :=
  (⟨0, rs.map (fun r =>
      (if r.name ∈ s.topics then 0 else 3, none, r.resource_type, r.name))⟩,
   { s with alterCalls := s.alterCalls + 1 })

/-- The result of `KafkaTopic.create_topic`: either the empty dict `{}`
returned on the if-not-exists short-circuit (topic.py line 35) — a
normal return, not an error — or the remote create response. -/
inductive CreateTopicResult where
  | empty
  | resp (r : List (String × Nat))
deriving DecidableEq, Repr

/-- `KafkaTopic.create_topic` (topic.py lines 21-49): with
`if_not_exists`, list the existing topics and return `{}` when the name
is already present; otherwise build a `NewTopic` and issue the remote
create with `validate_only=dry_run`. -/
def KafkaTopic.create_topic (name : String) (num_partitions : Nat := 3)
    (replication_factor : Nat := 3) (if_not_exists : Bool := false)
    (configs : List (String × String) := []) (dry_run : Bool := false)
    (s : AdminClientState) : CreateTopicResult × AdminClientState :=
  let proceed : AdminClientState → CreateTopicResult × AdminClientState :=
    fun s1 =>
      let topic : NewTopic := ⟨name, num_partitions, replication_factor, configs⟩
      let (r, s2) := clientCreateTopics [topic] dry_run s1
      (.resp r, s2)
  if if_not_exists then
    let (existing_topics, s1) := clientListTopics s
    if name ∈ existing_topics then (.empty, s1)
    else proceed s1
  else proceed s

/-- `KafkaTopic.list_topics` (topic.py lines 51-53). -/
def KafkaTopic.list_topics (s : AdminClientState) :
    List String × AdminClientState :=
  clientListTopics s

/-- `KafkaTopic.describe_topics` (topic.py lines 55-57): a single
pass-through to the client's `describe_topics` with the full topic
list. -/
def KafkaTopic.describe_topics (topics : List String) (s : AdminClientState) :
    List String × AdminClientState :=
  clientDescribeTopics topics s

/-- `KafkaTopic.delete_topics` (topic.py lines 71-84): with `dry_run` a
`DeleteTopicsResponse_v3` with zero throttle time and error code 0 per
requested topic is synthesised and returned without touching the client;
otherwise the remote delete is issued. -/
def KafkaTopic.delete_topics (topics : List String) (dry_run : Bool := false)
    (s : AdminClientState) : DeleteTopicsResponse_v3 × AdminClientState :=
  if dry_run then
    (⟨0, topics.map (fun topic => (topic, 0))⟩, s)
  else
    clientDeleteTopics topics s

/-- The per-resource failure message synthesised by
`KafkaTopic.alter_topic` for a missing topic (topic.py line 95):
`f"The topic '{name}' does not exist."`. -/
def alterMissingMsg (name : String) : String :=
  "The topic \x27" ++ name ++ "\x27 does not exist."

/-- `KafkaTopic.alter_topic` (topic.py lines 86-113): with `dry_run`,
check existence through the client's `describe_topics` and synthesise a
per-resource failure (error code 3, message naming the topic) or success
(error code 0) response without committing anything; otherwise issue the
remote `alter_configs`. -/
def KafkaTopic.alter_topic (name : String)
    (configs : List (String × String)) (dry_run : Bool := false)
    (s : AdminClientState) : AlterConfigsResponse_v1 × AdminClientState :=
  if dry_run then
    let (existing_topics, s1) := clientDescribeTopics [name] s
    if ¬ name ∈ existing_topics then
      (⟨0, [(3, some (alterMissingMsg name), ConfigResourceType.topic, name)]⟩, s1)
    else
      (⟨0, [(0, none, ConfigResourceType.topic, name)]⟩, s1)
  else
    let config : ConfigResource := ⟨ConfigResourceType.topic, name, configs⟩
    clientAlterConfigs [config] s

/- ------------------------------------------------------------------
   Concrete example states
   ------------------------------------------------------------------ -/

/-- A plain cluster configuration (all security fields at their
defaults). -/
def clusterCfgEx : ClusterConfig :=
  { bootstrap_servers := ["localhost:9092"] }

/-- A fresh registry declaring clusters `prod` and `staging`, with no
admin client constructed yet (spec §8, end-to-end example). -/
def coreEx : CoreState :=
  { clusters := some [("prod", clusterCfgEx), ("staging", clusterCfgEx)],
    admin_clients := [], constructed := 0 }

/-- The handle the first `kafka_admin_client("prod")` call on `coreEx`
constructs. -/
def prodClient : KafkaAdminClient := ⟨0, adminConfigOf clusterCfgEx⟩

/-- `coreEx` after the first `kafka_admin_client("prod")` call. -/
def coreExAfter : CoreState :=
  { coreEx with admin_clients := [("prod", prodClient)], constructed := 1 }

/-- A second constructed handle, for the shutdown scenarios. -/
def stagingClient : KafkaAdminClient := ⟨1, adminConfigOf clusterCfgEx⟩

/-- A registry with two cached admin clients. -/
def coreTwoClients : CoreState :=
  { clusters := some [("prod", clusterCfgEx), ("staging", clusterCfgEx)],
    admin_clients := [("prod", prodClient), ("staging", stagingClient)],
    constructed := 2 }

/-- Close-failure environment in which exactly the first cached client's
`close()` raises. -/
def failsFirst : KafkaAdminClient → Bool := fun h => h.hid = 0

/-- 25 distinct topic names. -/
def names25 : List String := (List.range 25).map (fun i => toString i)

/-- An admin client state with no topics and no remote calls yet. -/
def clientEmpty : AdminClientState := ⟨[], 0, 0, 0, 0, []⟩

/-- An admin client state for a cluster whose only topic is `"a"`. -/
def clientWithA : AdminClientState := ⟨["a"], 0, 0, 0, 0, []⟩

/- ------------------------------------------------------------------
   Helper lemmas
   ------------------------------------------------------------------ -/

/-- Appending an entry under a different key does not change a dict
lookup. -/
theorem lookupA_append_ne {α : Type} (l : List (String × α)) (k : String)
    (v : α) (name : String) (h : k ≠ name) :
    lookupA (l ++ [(k, v)]) name = lookupA l name := by
  induction l with
  | nil => simp [lookupA, h]
  | cons a rest ih =>
    obtain ⟨ak, av⟩ := a
    by_cases hak : ak = name <;> simp [lookupA, hak, ih]

/-- A `kafka_admin_client` call for name `n` either leaves the cache dict
unchanged or appends the returned client under key `n`. -/
theorem kafka_admin_client_cache_cases (s : CoreState) (n : String)
    (c : KafkaAdminClient) (s2 : CoreState)
    (h : Core.kafka_admin_client s n = some (c, s2)) :
    s2.admin_clients = s.admin_clients ∨
      s2.admin_clients = s.admin_clients ++ [(n, c)] := by
  unfold Core.kafka_admin_client at h
  cases hl : lookupA s.admin_clients n with
  | some client => rw [hl] at h; injection h with h; injection h with h1 h2
                   subst h2; exact Or.inl rfl
  | none =>
    rw [hl] at h
    cases hc : Core.get_cluster_config s n with
    | none => rw [hc] at h; exact absurd h (by simp)
    | some cfg =>
      rw [hc] at h
      simp only [Option.some.injEq, Prod.mk.injEq] at h
      obtain ⟨h1, h2⟩ := h
      subst h2
      exact Or.inr (by simp [h1])

/-- Unrolled characterisation of the `Core.close` loop: the walk stops at
the first client whose close fails; every client before it is closed. -/
theorem closeLoop_spec (fails : KafkaAdminClient → Bool) :
    ∀ (items : List (String × KafkaAdminClient)) (acc : List KafkaAdminClient),
      Core.closeLoop fails acc items =
        (if (items.map Prod.snd).all (fun h => !(fails h)) then .ok () else .error (),
         acc ++ (items.map Prod.snd).takeWhile (fun h => !(fails h))) := by
  intro items
  induction items with
  | nil => intro acc; simp [Core.closeLoop]
  | cons a rest ih =>
    intro acc
    obtain ⟨an, ac⟩ := a
    cases hf : fails ac with
    | true => simp [Core.closeLoop, hf, List.all_cons, List.takeWhile]
    | false =>
      simp only [Core.closeLoop, hf, List.map_cons, List.all_cons,
        List.takeWhile, Bool.not_false, Bool.true_and, if_false, ih]
      simp

/- ------------------------------------------------------------------
   Claim theorems
   ------------------------------------------------------------------ -/

/-- C1: for a cluster name present in the registry, the first
`kafka_admin_client` call constructs exactly one new client (the
construction counter rises by one) and stores it in the cache keyed by
that name; a call for an already-cached name returns the identical
cached handle and leaves the state (hence the construction counter)
unchanged; and a cluster name never requested in a run of requests keeps
its cache entry (in particular stays unconnected when it starts
unconnected). -/
theorem C1_kafka_admin_client_lazy_cache (s : CoreState) (name : String)
    (cfg : ClusterConfig) (hreg : Core.get_cluster_config s name = some cfg) :
    (lookupA s.admin_clients name = none →
      Core.kafka_admin_client s name =
        some (⟨s.constructed, adminConfigOf cfg⟩,
          { s with
              admin_clients :=
                s.admin_clients ++ [(name, ⟨s.constructed, adminConfigOf cfg⟩)],
              constructed := s.constructed + 1 })) ∧
    (∀ h, lookupA s.admin_clients name = some h →
      Core.kafka_admin_client s name = some (h, s)) ∧
    (∀ rs, ¬ name ∈ rs →
      lookupA (Core.runRequests s rs).admin_clients name =
        lookupA s.admin_clients name) := by
  refine ⟨?_, ?_, ?_⟩
  · intro hmiss
    simp [Core.kafka_admin_client, hmiss, hreg]
  · intro h hhit
    simp [Core.kafka_admin_client, hhit]
  · intro rs
    clear hreg
    induction rs generalizing s with
    | nil => intro _; rfl
    | cons n rest ih =>
      intro hnot
      have hne : n ≠ name := fun he => hnot (by simp [he])
      have hrest : ¬ name ∈ rest := fun hm => hnot (by simp [hm])
      cases hcall : Core.kafka_admin_client s n with
      | none => simpa [Core.runRequests, hcall] using ih s hrest
      | some pair =>
        obtain ⟨c, s2⟩ := pair
        have hcases := kafka_admin_client_cache_cases s n c s2 hcall
        have hpres : lookupA s2.admin_clients name = lookupA s.admin_clients name := by
          cases hcases with
          | inl he => rw [he]
          | inr he => rw [he, lookupA_append_ne _ _ _ _ hne]
        simp only [Core.runRequests, hcall]
        rw [ih s2 hrest, hpres]

/-- C1 witness: on the fresh two-cluster registry `coreEx`, the first
`kafka_admin_client("prod")` call constructs handle 0 and caches it, the
second call returns the identical handle with the state unchanged, and
after the run `["prod", "prod"]` the never-requested name `staging` is
still unconnected. -/
theorem C1_witness :
    Core.kafka_admin_client coreEx "prod" = some (prodClient, coreExAfter) ∧
    Core.kafka_admin_client coreExAfter "prod" = some (prodClient, coreExAfter) ∧
    lookupA (Core.runRequests coreEx ["prod", "prod"]).admin_clients "staging" =
      lookupA coreEx.admin_clients "staging" := by
  have h1 := C1_kafka_admin_client_lazy_cache coreEx "prod" clusterCfgEx (by decide)
  have h2 := C1_kafka_admin_client_lazy_cache coreExAfter "prod" clusterCfgEx (by decide)
  have h3 := C1_kafka_admin_client_lazy_cache coreEx "staging" clusterCfgEx (by decide)
  refine ⟨?_, ?_, ?_⟩
  · exact h1.1 (by decide)
  · exact h2.2.1 prodClient (by decide)
  · exact h3.2.2 ["prod", "prod"] (by decide)

/-- C2 counterexample: under the interleaving in which both first-use
callers pass the cache-membership test before either stores (the
schedule `schedRace`, preempting at the connection-establishment
suspension point of spec §5 — `Core.kafka_admin_client` takes no lock),
TWO connections are constructed for the single contended name and the
two callers return different handles, contradicting "at most one live
connection is ever created" and "receives the same handle". -/
theorem C2_counterexample :
    (raceRun schedRace raceInit).built = 2 ∧
    (raceRun schedRace raceInit).ra = some 0 ∧
    (raceRun schedRace raceInit).rb = some 1 ∧
    (raceRun schedRace raceInit).ra ≠ (raceRun schedRace raceInit).rb := by
  decide

/-- C2 amended: `Core.kafka_admin_client` performs no serialization on
the cache-miss path, so when two concurrent first-use callers for the
same name interleave at the connection-construction step each constructs
its own connection (two constructions, see the counterexample), the
later store remaining cached; only when the two callers do not overlap
is exactly one connection constructed, with both callers receiving that
identical cached handle. -/
theorem C2_unsynchronized_construction :
    ((raceRun schedSeqA raceInit).built = 1 ∧
     (raceRun schedSeqA raceInit).ra = some 0 ∧
     (raceRun schedSeqA raceInit).rb = some 0 ∧
     (raceRun schedSeqA raceInit).cache = some 0) ∧
    ((raceRun schedSeqB raceInit).built = 1 ∧
     (raceRun schedSeqB raceInit).ra = (raceRun schedSeqB raceInit).rb ∧
     (raceRun schedSeqB raceInit).cache = (raceRun schedSeqB raceInit).ra) ∧
    (raceRun schedRace raceInit).cache = some 1 := by
  decide

/-- C3 counterexample: with two cached clients of which the first one's
`close()` raises, `Core.close` propagates the failure (`.error`), the
second client is never closed, and the cache is not cleared —
contradicting "closes every remaining cached handle, clears the cache,
and returns normally". -/
theorem C3_counterexample :
    Core.close failsFirst coreTwoClients = (coreTwoClients, .error (), []) ∧
    ¬ stagingClient ∈ (Core.close failsFirst coreTwoClients).2.2 ∧
    (Core.close failsFirst coreTwoClients).1.admin_clients ≠ [] := by
  refine ⟨rfl, by decide, by decide⟩

/-- C3 amended: `Core.close` has no handler around the per-client
`close()` calls, so the first failing close aborts the loop: the failure
propagates to the caller, the clients from the failing one onwards are
not closed, and the cache is not cleared.  When every close succeeds,
every cached handle is closed exactly once (in insertion order) and the
cache is cleared; calling `close` when the cache is already empty closes
nothing and is a no-op. -/
theorem C3_close_first_failure_aborts :
    (∀ (fails : KafkaAdminClient → Bool) (s : CoreState),
      Core.close fails s =
        (if (s.admin_clients.map Prod.snd).all (fun h => !(fails h))
           then { s with admin_clients := [] } else s,
         if (s.admin_clients.map Prod.snd).all (fun h => !(fails h))
           then .ok () else .error (),
         (s.admin_clients.map Prod.snd).takeWhile (fun h => !(fails h)))) ∧
    (∀ (fails : KafkaAdminClient → Bool)
       (clusters : Option (List (String × ClusterConfig))) (n : Nat),
      Core.close fails ⟨clusters, [], n⟩ = (⟨clusters, [], n⟩, .ok (), [])) := by
  constructor
  · intro fails s
    cases hall : (s.admin_clients.map Prod.snd).all (fun h => !(fails h)) with
    | true => simp [Core.close, closeLoop_spec, hall]
    | false => simp [Core.close, closeLoop_spec, hall]
  · intro fails clusters n
    simp [Core.close, Core.closeLoop]

/-- C4: `Core.close` touches only the connection cache: for every
registry state and close-failure environment, the cluster name list
`Core.clusters` after the call is exactly the one before it; and on the
run in which every close succeeds, the connection cache is emptied. -/
theorem C4_close_preserves_definitions :
    (∀ (fails : KafkaAdminClient → Bool) (s : CoreState),
      Core.clusters (Core.close fails s).1 = Core.clusters s) ∧
    (∀ s : CoreState,
      (Core.close (fun _ => false) s).1.admin_clients = []) := by
  constructor
  · intro fails s
    unfold Core.close
    cases h : Core.closeLoop fails [] s.admin_clients with
    | mk res closed => cases res <;> simp [Core.clusters]
  · intro s
    simp [Core.close, closeLoop_spec]

/-- C5: evaluation of `KafkaTopic.describe_topics` at the claim's failing
input — the source (topic.py lines 55-57) is a plain pass-through with no
include-configs parameter and no batching, so 25 topic names are sent to
the underlying describe call as ONE batch of 25 names, not three batches
of at most 10. -/
theorem C5_describe_topics_unbatched :
    (KafkaTopic.describe_topics names25 clientEmpty).2.describeCalls = [names25] ∧
    names25.length = 25 ∧
    ¬ (∀ b ∈ (KafkaTopic.describe_topics names25 clientEmpty).2.describeCalls,
        b.length ≤ 10) := by
  refine ⟨rfl, by decide, ?_⟩
  intro hall
  have := hall names25 (by decide)
  simp [names25] at this

/-- C6: `create_topic` with `if_not_exists=true` for a name already in
the cluster's topic list returns the empty dict `{}` as a normal success
(the `.empty` result, not an error) after the single `list_topics`
lookup, performing zero remote create calls and leaving the topic list
unchanged. -/
theorem C6_create_topic_if_not_exists (name : String)
    (num_partitions replication_factor : Nat)
    (configs : List (String × String)) (dry_run : Bool)
    (s : AdminClientState) (hpresent : name ∈ s.topics) :
    KafkaTopic.create_topic name num_partitions replication_factor true
        configs dry_run s =
      (.empty, { s with listCalls := s.listCalls + 1 }) ∧
    (KafkaTopic.create_topic name num_partitions replication_factor true
        configs dry_run s).2.createCalls = s.createCalls ∧
    (KafkaTopic.create_topic name num_partitions replication_factor true
        configs dry_run s).2.topics = s.topics := by
  have h :
      KafkaTopic.create_topic name num_partitions replication_factor true
          configs dry_run s =
        (.empty, { s with listCalls := s.listCalls + 1 }) := by
    simp [KafkaTopic.create_topic, clientListTopics, hpresent]
  exact ⟨h, by rw [h], by rw [h]⟩

/-- C6 witness: on a cluster whose only topic is `"a"`,
`create_topic("a", if_not_exists=true)` returns `{}` and changes nothing
but the list-call counter. -/
theorem C6_witness :
    KafkaTopic.create_topic "a" 3 3 true [] false clientWithA =
      (.empty, { clientWithA with listCalls := 1 }) := by
  exact (C6_create_topic_if_not_exists "a" 3 3 [] false clientWithA
    (by decide)).1

/-- C7: `delete_topics` with `dry_run=true` performs no remote call and
does not touch the client state at all (in particular the topic list and
the delete-call counter are unchanged), returning a synthesized
`DeleteTopicsResponse_v3` — the same response shape the remote delete
returns — with zero throttle time and error code 0 for each requested
topic. -/
theorem C7_delete_topics_dry_run (topics : List String)
    (s : AdminClientState) :
    KafkaTopic.delete_topics topics true s =
      (⟨0, topics.map (fun topic => (topic, 0))⟩, s) ∧
    (KafkaTopic.delete_topics topics true s).2.topics = s.topics ∧
    (KafkaTopic.delete_topics topics true s).2.deleteCalls = s.deleteCalls ∧
    ∀ p ∈ (KafkaTopic.delete_topics topics true s).1.topic_error_codes,
      p.2 = 0 := by
  refine ⟨rfl, rfl, rfl, ?_⟩
  intro p hp
  simp [KafkaTopic.delete_topics] at hp
  obtain ⟨t, _, hpt⟩ := hp
  rw [← hpt]

/-- C8: `alter_topic` with `dry_run=true` checks existence through the
client's `describe_topics` (the describe-call log grows by the singleton
batch `[name]`), commits nothing (topic list and alter-call counter
unchanged, since only the describe log differs), and returns — without
raising — a per-resource result carrying error code 0 when the topic
exists, and error code 3 with a message naming the topic when it does
not. -/
theorem C8_alter_topic_dry_run (name : String)
    (configs : List (String × String)) (s : AdminClientState) :
    KafkaTopic.alter_topic name configs true s =
      ((if name ∈ s.topics then
          (⟨0, [(0, none, ConfigResourceType.topic, name)]⟩ :
            AlterConfigsResponse_v1)
        else
          ⟨0, [(3, some (alterMissingMsg name),
                ConfigResourceType.topic, name)]⟩),
       { s with describeCalls := s.describeCalls ++ [[name]] }) := by
  by_cases h : name ∈ s.topics <;>
    simp [KafkaTopic.alter_topic, clientDescribeTopics, h]

/-- Dropping leading whitespace by index arithmetic (the source's while
loop) agrees with `dropWhile` on the suffix. -/
theorem drop_skipCount (l : List Char) :
    l.drop (skipCount l) = l.dropWhile pyIsSpace := by
  induction l with
  | nil => rfl
  | cons c rest ih =>
    cases h : pyIsSpace c with
    | true => simp [skipCount, h, List.dropWhile, ih]
    | false => simp [skipCount, h, List.dropWhile]

/-- The source's whitespace-skipping index loop, seen through `drop`:
`drop` at the skipped-to index is `dropWhile` on the suffix at the start
index. -/
theorem drop_skipSpaces (t : List Char) (i : Nat) :
    t.drop (skipSpaces t i) = (t.drop i).dropWhile pyIsSpace := by
  rw [skipSpaces, ← List.drop_drop (skipCount (t.drop i)) i t,
    drop_skipCount]

/-- A character that is neither the backslash nor the quote passes
through the spec scan unchanged. -/
theorem specScan_cons_ne (q ch : Char) (rest : List Char)
    (h1 : ¬ ch = backslashChar) (h2 : ¬ ch = q) :
    specScan q (ch :: rest) = ch :: specScan q rest := by
  cases rest with
  | nil => simp [specScan, h2]
  | cons c2 rr => simp [specScan, h1, h2]

/-- An unescaped quote at the head stops the spec scan. -/
theorem specScan_stop (q : Char) (rest : List Char)
    (hq : ¬ q = backslashChar) :
    specScan q (q :: rest) = [] := by
  cases rest with
  | nil => simp [specScan]
  | cons c2 rr => simp [specScan, hq]

/-- Bridge between the source's reversed-accumulator loop (`scanLoop`,
with Python's `value[-1]` fold) and the forward spec scan (`specScan`):
stated simultaneously for accumulators not ending in a backslash and for
accumulators ending in one (where the pending backslash transfers to the
input of the spec scan). -/
theorem scanLoop_specScan_aux (q : Char) (hq : ¬ q = backslashChar) :
    ∀ l : List Char,
      (∀ v : List Char, v.head? ≠ some backslashChar →
        (scanLoop l q v).reverse = v.reverse ++ specScan q l) ∧
      (∀ v : List Char,
        (scanLoop l q (backslashChar :: v)).reverse =
          v.reverse ++ specScan q (backslashChar :: l)) := by
  have hq2 : ¬ backslashChar = q := fun h => hq h.symm
  intro l
  induction l with
  | nil =>
    constructor
    · intro v _
      simp [scanLoop, specScan]
    · intro v
      simp [scanLoop, specScan, hq2]
  | cons ch rest ih =>
    obtain ⟨ih1, ih2⟩ := ih
    constructor
    · intro v hv
      by_cases hchq : ch = q
      · cases v with
        | nil => simp [scanLoop, hchq, specScan_stop q rest hq]
        | cons b v2 =>
          have hb : ¬ b = backslashChar := by
            intro hbe; exact hv (by simp [hbe])
          simp [scanLoop, hchq, hb, specScan_stop q rest hq]
      · by_cases hchbs : ch = backslashChar
        · have hstep : scanLoop (ch :: rest) q v =
              scanLoop rest q (backslashChar :: v) := by
            simp [scanLoop, hchq, hchbs, hq2]
          rw [hstep, ih2 v, hchbs]
        · have hstep : scanLoop (ch :: rest) q v =
              scanLoop rest q (ch :: v) := by
            simp [scanLoop, hchq]
          rw [hstep, ih1 (ch :: v) (by simp [hchbs]),
            specScan_cons_ne q ch rest hchbs hchq]
          simp
    · intro v
      by_cases hchq : ch = q
      · have hstep : scanLoop (ch :: rest) q (backslashChar :: v) =
            scanLoop rest q (q :: v) := by
          simp [scanLoop, hchq]
        have hspec : specScan q (backslashChar :: ch :: rest) =
            q :: specScan q rest := by
          simp [specScan, hchq]
        rw [hstep, ih1 (q :: v) (by simp [hq]), hspec]
        simp
      · by_cases hchbs : ch = backslashChar
        · have hstep : scanLoop (ch :: rest) q (backslashChar :: v) =
              scanLoop rest q (backslashChar :: backslashChar :: v) := by
            simp [scanLoop, hchq, hchbs, hq2]
          have hspec : specScan q (backslashChar :: ch :: rest) =
              backslashChar :: specScan q (backslashChar :: rest) := by
            simp [specScan, hchbs, hchq, hq2]
          rw [hstep, ih2 (backslashChar :: v), hspec]
          simp
        · have hstep : scanLoop (ch :: rest) q (backslashChar :: v) =
              scanLoop rest q (ch :: backslashChar :: v) := by
            simp [scanLoop, hchq]
          have hspec : specScan q (backslashChar :: ch :: rest) =
              backslashChar :: ch :: specScan q rest := by
            rw [show specScan q (backslashChar :: ch :: rest) =
                backslashChar :: specScan q (ch :: rest) by
                simp [specScan, hchq, hq2],
              specScan_cons_ne q ch rest hchbs hchq]
          rw [hstep, ih1 (ch :: backslashChar :: v) (by simp [hchbs]), hspec]
          simp

/-- The source's accumulation loop started on the empty accumulator
computes exactly the forward spec scan. -/
theorem scanLoop_eq_specScan (q : Char) (hq : ¬ q = backslashChar)
    (l : List Char) : (scanLoop l q []).reverse = specScan q l := by
  simpa using (scanLoop_specScan_aux q hq l).1 [] (by simp)

/-- The source scanner equals the spec-worded scanner on every input
(character-list level). -/
theorem parse_valueChars_eq_spec (k t : List Char) :
    parse_valueChars k t = specParseValueChars k t := by
  unfold parse_valueChars specParseValueChars
  cases h1 : findFrom t k 0 with
  | none => simp only [h1]
  | some p =>
    cases h2 : findFrom t [Char.ofNat 61] (p + k.length) with
    | none => simp only [h1, h2]
    | some e =>
      simp only [h1, h2]
      have hW := drop_skipSpaces t (e + 1)
      cases hl : (t.drop (e + 1)).dropWhile pyIsSpace with
      | nil =>
        rw [hW, hl]
        simp
      | cons c restl =>
        have hdrop1 : t.drop (skipSpaces t (e + 1) + 1) = restl := by
          rw [← List.tail_drop, hW, hl, List.tail_cons]
        rw [hW, hl, hdrop1]
        simp only [List.head?]
        by_cases hquote : c = dquoteChar ∨ c = squoteChar
        · have hcbs : ¬ c = backslashChar := by
            rcases hquote with h | h <;>
              (intro hh; rw [h] at hh; exact absurd hh (by decide))
          rw [if_pos hquote, if_pos hquote, scanLoop_eq_specScan c hcbs restl]
        · rw [if_neg hquote, if_neg hquote]

/-- Key absent: the scanner returns the empty value. -/
theorem parse_valueChars_no_key (k t : List Char)
    (h : findFrom t k 0 = none) : parse_valueChars k t = [] := by
  unfold parse_valueChars
  rw [h]

/-- No `=` after the key: the scanner returns the empty value. -/
theorem parse_valueChars_no_eq (k t : List Char) (p : Nat)
    (h1 : findFrom t k 0 = some p)
    (h2 : findFrom t [Char.ofNat 61] (p + k.length) = none) :
    parse_valueChars k t = [] := by
  unfold parse_valueChars
  simp only [h1, h2]

/-- Text exhausted after skipping whitespace: the scanner returns the
empty value. -/
theorem parse_valueChars_no_open (k t : List Char) (p e : Nat)
    (h1 : findFrom t k 0 = some p)
    (h2 : findFrom t [Char.ofNat 61] (p + k.length) = some e)
    (h3 : (t.drop (skipSpaces t (e + 1))).head? = none) :
    parse_valueChars k t = [] := by
  unfold parse_valueChars
  simp only [h1, h2, h3]

/-- Character after the whitespace is not a quote: the scanner returns
the empty value. -/
theorem parse_valueChars_bad_open (k t : List Char) (p e : Nat) (c : Char)
    (h1 : findFrom t k 0 = some p)
    (h2 : findFrom t [Char.ofNat 61] (p + k.length) = some e)
    (h3 : (t.drop (skipSpaces t (e + 1))).head? = some c)
    (h4 : ¬ (c = dquoteChar ∨ c = squoteChar)) :
    parse_valueChars k t = [] := by
  unfold parse_valueChars
  simp only [h1, h2, h3]
  rw [if_neg h4]

/-- When the scan never reaches an unescaped closing quote, the spec scan
keeps every character, folding the escapes. -/
theorem specScan_of_not_hasTerm (q : Char) :
    ∀ l : List Char, hasTerm q l = false → specScan q l = escFold q l := by
  have H : ∀ (n : Nat) (l : List Char), l.length ≤ n →
      hasTerm q l = false → specScan q l = escFold q l := by
    intro n
    induction n with
    | zero =>
      intro l hl _
      have hnil : l = [] := List.length_eq_zero.mp (Nat.le_zero.mp hl)
      subst hnil
      rfl
    | succ n ih =>
      intro l hl ht
      cases l with
      | nil => rfl
      | cons c1 l2 =>
        cases l2 with
        | nil =>
          have hc1 : ¬ c1 = q := by simpa [hasTerm] using ht
          simp [specScan, escFold, hc1]
        | cons c2 rest =>
          by_cases hb : c1 = backslashChar
          · by_cases hcq : c2 = q
            · have ht2 : hasTerm q rest = false := by
                simpa [hasTerm, hb, hcq] using ht
              have hlen : rest.length ≤ n := by
                simp only [List.length_cons] at hl
                omega
              simp [specScan, escFold, hb, hcq, ih rest hlen ht2]
            · by_cases hc1q : c1 = q
              · exfalso
                simp [hasTerm, hb, hcq] at ht
                exact ht.1 (by rw [← hb, hc1q])
              · have hbq : ¬ backslashChar = q := by
                  rw [← hb]; exact hc1q
                have ht2 : hasTerm q (c2 :: rest) = false := by
                  simpa [hasTerm, hb, hcq, hbq] using ht
                have hlen : (c2 :: rest).length ≤ n := by
                  simp only [List.length_cons] at hl ⊢
                  omega
                simp [specScan, escFold, hb, hcq, hbq, ih _ hlen ht2]
          · by_cases hc1q : c1 = q
            · exfalso
              have hqbs : ¬ q = backslashChar := by
                rw [← hc1q]; exact hb
              simp [hasTerm, hc1q] at ht
              exact hqbs ht.1.1
            · have ht2 : hasTerm q (c2 :: rest) = false := by
                simpa [hasTerm, hb, hc1q] using ht
              have hlen : (c2 :: rest).length ≤ n := by
                simp only [List.length_cons] at hl ⊢
                omega
              simp [specScan, escFold, hb, hc1q, ih _ hlen ht2]
  intro l
  exact H l.length l (Nat.le_refl _)

/-- The escape fold of a nonempty list is nonempty. -/
theorem escFold_cons_ne_nil (q c2 : Char) (rr : List Char) :
    escFold q (c2 :: rr) ≠ [] := by
  cases rr with
  | nil => simp [escFold]
  | cons c3 rrr =>
    unfold escFold
    split
    · simp
    · simp

/-- C9: `parse_value` implements exactly the specified JAAS quoted-value
scan: on every key and text it agrees with the scanner stated from the
spec's words (`specParseValue` — locate the key, find the next `=`, skip
whitespace, require a quote, accumulate until an unescaped matching
quote with backslash-quote folding); and whenever the key, the `=` after
it, or the opening quote is absent (text exhausted or the next character
not a quote), it returns the empty string. -/
theorem C9_parse_value_implements_spec_scan (key text : String) :
    parse_value key text = specParseValue key text ∧
    (findFrom text.toList key.toList 0 = none → parse_value key text = "") ∧
    (∀ p, findFrom text.toList key.toList 0 = some p →
      findFrom text.toList [Char.ofNat 61] (p + key.toList.length) = none →
      parse_value key text = "") ∧
    (∀ p e, findFrom text.toList key.toList 0 = some p →
      findFrom text.toList [Char.ofNat 61] (p + key.toList.length) = some e →
      (text.toList.drop (skipSpaces text.toList (e + 1))).head? = none →
      parse_value key text = "") ∧
    (∀ p e c, findFrom text.toList key.toList 0 = some p →
      findFrom text.toList [Char.ofNat 61] (p + key.toList.length) = some e →
      (text.toList.drop (skipSpaces text.toList (e + 1))).head? = some c →
      ¬ (c = dquoteChar ∨ c = squoteChar) →
      parse_value key text = "") := by
  refine ⟨?_, ?_, ?_, ?_, ?_⟩
  · unfold parse_value specParseValue
    rw [parse_valueChars_eq_spec]
  · intro h
    unfold parse_value
    rw [parse_valueChars_no_key key.toList text.toList h]
    rfl
  · intro p h1 h2
    unfold parse_value
    rw [parse_valueChars_no_eq key.toList text.toList p h1 h2]
    rfl
  · intro p e h1 h2 h3
    unfold parse_value
    rw [parse_valueChars_no_open key.toList text.toList p e h1 h2 h3]
    rfl
  · intro p e c h1 h2 h3 h4
    unfold parse_value
    rw [parse_valueChars_bad_open key.toList text.toList p e c h1 h2 h3 h4]
    rfl

/-- C9 witness: on the spec's JAAS example the source scanner and the
spec scanner agree (the escaped quote in the password is folded), and an
absent `=` yields the empty string. -/
theorem C9_witness :
    parse_value "password"
        "org.foo required username=\"alice\" password=\"p@ss\\\"word\";" =
      specParseValue "password"
        "org.foo required username=\"alice\" password=\"p@ss\\\"word\";" ∧
    parse_value "password"
        "org.foo required username=\"alice\" password=\"p@ss\\\"word\";" =
      "p@ss\"word" ∧
    parse_value "k" "kx" = "" := by
  refine ⟨?_, by decide, ?_⟩
  · exact (C9_parse_value_implements_spec_scan "password"
      "org.foo required username=\"alice\" password=\"p@ss\\\"word\";").1
  · exact (C9_parse_value_implements_spec_scan "k" "kx").2.2.1 0
      (by decide) (by decide)

/-- C10 counterexample: for key `k` and text `k="` (the opening quote is
the last character) the key, the `=` and the opening quote are all
present and no unescaped closing quote follows, yet `parse_value`
returns the EMPTY string — zero characters were accumulated —
contradicting the claim's "not the empty string". -/
theorem C10_counterexample :
    findFrom "k=\"".toList "k".toList 0 = some 0 ∧
    findFrom "k=\"".toList [Char.ofNat 61] (0 + "k".toList.length) = some 1 ∧
    ("k=\"".toList.drop (1 + 1)).dropWhile pyIsSpace = [dquoteChar] ∧
    hasTerm dquoteChar [] = false ∧
    parse_value "k" "k=\"" = "" := by
  decide

/-- C10 (amended): when the key, the `=` and an opening quote are present
but no unescaped matching closing quote occurs before the end of the
text, `parse_value` returns — without an error — exactly the characters
accumulated from after the opening quote to the end of the text with the
escape folding applied (`escFold`); the result is the empty string
precisely when no characters follow the opening quote, and nonempty
otherwise. -/
theorem C10_unterminated_value_truncated (key text : String) (p e : Nat)
    (c : Char) (rest : List Char)
    (hk : findFrom text.toList key.toList 0 = some p)
    (he : findFrom text.toList [Char.ofNat 61] (p + key.toList.length) = some e)
    (hqv : (text.toList.drop (e + 1)).dropWhile pyIsSpace = c :: rest)
    (hquote : c = dquoteChar ∨ c = squoteChar)
    (hterm : hasTerm c rest = false) :
    parse_value key text = (escFold c rest).asString ∧
    (rest = [] ∨ parse_value key text ≠ "") := by
  have hspec : specParseValueChars key.toList text.toList = escFold c rest := by
    unfold specParseValueChars
    simp only [hk, he, hqv]
    rw [if_pos hquote, specScan_of_not_hasTerm c rest hterm]
  have hmain : parse_value key text = (escFold c rest).asString := by
    unfold parse_value
    rw [parse_valueChars_eq_spec, hspec]
  refine ⟨hmain, ?_⟩
  cases rest with
  | nil => exact Or.inl rfl
  | cons c2 rr =>
    refine Or.inr ?_
    rw [hmain]
    intro hcontra
    have hdata := congrArg String.data hcontra
    exact escFold_cons_ne_nil c c2 rr hdata

/-- C10 witness: for key `k` and text `k="ab\"cd` (opening quote present,
escaped quote inside, no closing quote) the scanner returns the
truncated, escape-folded value `ab"cd`, which is nonempty. -/
theorem C10_witness :
    parse_value "k" "k=\"ab\\\"cd" =
      (escFold dquoteChar
        ['a', 'b', backslashChar, dquoteChar, 'c', 'd']).asString ∧
    parse_value "k" "k=\"ab\\\"cd" = "ab\"cd" ∧
    parse_value "k" "k=\"ab\\\"cd" ≠ "" := by
  have h := C10_unterminated_value_truncated "k" "k=\"ab\\\"cd" 0 1 dquoteChar
    ['a', 'b', backslashChar, dquoteChar, 'c', 'd']
    (by decide) (by decide) (by decide) (Or.inl rfl) (by decide)
  refine ⟨h.1, by decide, ?_⟩
  rcases h.2 with h2 | h2
  · exact absurd h2 (by decide)
  · exact h2
